import Mathlib

/-!
Verification of the spg character-password generator core.

Go strings are modelled as `List Char` (a Go string is iterated rune-wise by
every operation the claims touch). Two versions of the generator exist in the
repository; they are embedded side by side:

* `V1` — `char_gen.go`: per-class `CharInclusion` fields (`Uppers`, `Lowers`,
  `Digits`, `Symbols`, `Ambiguous`), resolved via a reflection loop over the
  `fieldNamesAlphabets` map.
* `V2` — the flag variant: bitmask `CTFlag` fields `Allow`/`Require`/`Exclude`,
  resolved via a loop over the `charTypeByFlag` map.

Helper functions `subtractString`, `entropySimple`, `Int31n` and the types
`Token`/`Password` live elsewhere in the repository; they are modelled from the
spec where noted.
-/

namespace Spg

/-- Character type constant `CTUpper = "ABCDEFGHIJKLMNOPQRSTUVWXYZ"`. -/
def CTUpper : List Char := "ABCDEFGHIJKLMNOPQRSTUVWXYZ".toList

/-- Character type constant `CTLower = "abcdefghijklmnopqrstuvwxyz"`. -/
def CTLower : List Char := "abcdefghijklmnopqrstuvwxyz".toList

/-- Character type constant `CTDigits = "0123456789"`. -/
def CTDigits : List Char := "0123456789".toList

/-- Character type constant `CTAmbiguous = "0O1Il5S"`. -/
def CTAmbiguous : List Char := "0O1Il5S".toList

/-- Character type constant `CTSymbols = "!#%)*+,-.:=>?@]^_}~"`. -/
def CTSymbols : List Char := "!#%)*+,-.:=>?@]^_\x7d~".toList

/-- Character type constant `CTWhiteSpace = " \t"` (space and horizontal tab). -/
def CTWhiteSpace : List Char := " \t".toList

/-- Helper for `subtractString`: keep only the first occurrence of each
character, `seen` being the characters already emitted. -/
def dedupFirstAux : List Char → List Char → List Char
  | _, [] => []
  | seen, c :: rest =>
    if c ∈ seen then dedupFirstAux seen rest
    else c :: dedupFirstAux (c :: seen) rest

/-- Keep only the first occurrence of each character of a list. -/
def dedupFirst (l : List Char) : List Char := dedupFirstAux [] l

theorem mem_dedupFirstAux (x : Char) :
    ∀ (l seen : List Char), x ∈ dedupFirstAux seen l ↔ x ∈ l ∧ x ∉ seen := by
  intro l
  induction l with
  | nil => intro seen; simp [dedupFirstAux]
  | cons c rest ih =>
    intro seen
    by_cases hc : c ∈ seen
    · rw [dedupFirstAux, if_pos hc, ih]
      constructor
      · rintro ⟨hx, hns⟩
        exact ⟨List.mem_cons_of_mem _ hx, hns⟩
      · rintro ⟨hx, hns⟩
        rcases List.mem_cons.mp hx with rfl | hx
        · exact absurd hc hns
        · exact ⟨hx, hns⟩
    · rw [dedupFirstAux, if_neg hc]
      constructor
      · intro hx
        rcases List.mem_cons.mp hx with rfl | hx
        · exact ⟨List.mem_cons_self _ _, hc⟩
        · obtain ⟨h1, h2⟩ := (ih (c :: seen)).mp hx
          exact ⟨List.mem_cons_of_mem _ h1,
            fun hs => h2 (List.mem_cons_of_mem _ hs)⟩
      · rintro ⟨hx, hns⟩
        rcases List.mem_cons.mp hx with rfl | hx
        · exact List.mem_cons_self _ _
        · by_cases hxc : x = c
          · subst hxc; exact List.mem_cons_self _ _
          · exact List.mem_cons_of_mem _ ((ih (c :: seen)).mpr
              ⟨hx, fun hs => (List.mem_cons.mp hs).elim hxc hns⟩)

theorem nodup_dedupFirstAux :
    ∀ (l seen : List Char), (dedupFirstAux seen l).Nodup := by
  intro l
  induction l with
  | nil => intro seen; simp [dedupFirstAux]
  | cons c rest ih =>
    intro seen
    by_cases hc : c ∈ seen
    · rw [dedupFirstAux, if_pos hc]; exact ih seen
    · rw [dedupFirstAux, if_neg hc]
      refine List.nodup_cons.mpr ⟨fun hmem => ?_, ih (c :: seen)⟩
      exact ((mem_dedupFirstAux c rest (c :: seen)).mp hmem).2 (List.mem_cons_self c seen)

theorem mem_dedupFirst (x : Char) (l : List Char) : x ∈ dedupFirst l ↔ x ∈ l := by
  rw [dedupFirst, mem_dedupFirstAux]
  simp

theorem nodup_dedupFirst (l : List Char) : (dedupFirst l).Nodup :=
  nodup_dedupFirstAux l []

/-- Modelled from the spec: `subtractString` is not under `src/`. Spec §4.2
steps 4 and 5: compute the character-wise set difference `included − excluded`
(every character present in `excluded` is removed from `included` regardless of
how many times or which rule added it) and deduplicate so that the final
alphabet contains each distinct character exactly once, in a deterministic
(first-occurrence) order. -/
def subtractString (ab exclude : List Char) : List Char :=
  dedupFirst (ab.filter (fun c => decide (c ∉ exclude)))

theorem mem_subtractString (x : Char) (ab exclude : List Char) :
    x ∈ subtractString ab exclude ↔ x ∈ ab ∧ x ∉ exclude := by
  rw [subtractString, mem_dedupFirst, List.mem_filter]
  simp

theorem nodup_subtractString (ab exclude : List Char) :
    (subtractString ab exclude).Nodup :=
  nodup_dedupFirst _

/-- Modelled from the spec: `entropySimple` is not under `src/`. Spec §4.3
baseline formula: `entropy = length × log2(n)` where `n` is the alphabet size.
Floating-point values are modelled as real numbers. -/
noncomputable def entropySimple (length : Int) (size : Nat) : ℝ :=
  (length : ℝ) * Real.logb 2 (size : ℝ)

/-- Token kinds. `AtomTokenType` tags a single literal character chosen from
the alphabet (spec §3, Token). -/
inductive TokenType where
  | atom
  deriving DecidableEq, Repr

/-- Modelled from the spec: the `Token` type is not under `src/`. Spec §3: one
unit of generated output; `Generate` builds each one as `Token{c, AtomTokenType}`
with `c` a one-character string from the alphabet. -/
structure Token where
  value : List Char
  ty : TokenType
  deriving DecidableEq, Repr

/-- Modelled from the spec: the `Password` type is not under `src/`. Spec §3:
an ordered sequence of tokens plus entropy in bits; `Generate` sets the fields
`Tokens` and `Entropy`. -/
structure Password where
  Tokens : List Token
  Entropy : ℝ

/-- Outcomes of `Generate` other than a password. `invalidLength` models the
`fmt.Errorf("don't ask for passwords of length %d", …)` return for
`Length < 1`; `panicOutOfRange` models the Go runtime panic raised by
`chars[i]` when the index is not below `len(chars)` (in particular whenever
`chars` is empty) — a crash, not a returned error value. -/
inductive GenError where
  | invalidLength
  | panicOutOfRange
  deriving DecidableEq, Repr

namespace V1

/-- Go `type CharInclusion int`. -/
abbrev CharInclusion := Int

/-- `CIUnstated = iota` (0): not included by this statement, but not excluded
either. -/
def CIUnstated : CharInclusion := 0

/-- `CIAllow` (1): allowed in the generated password. -/
def CIAllow : CharInclusion := 1

/-- `CIRequire` (2): at least one of these must be in each generated password
(per the constant's own doc comment). -/
def CIRequire : CharInclusion := 2

/-- `CIExclude` (3): none of these may appear in a generated password. -/
def CIExclude : CharInclusion := 3

/-- `CharRecipe` of `char_gen.go`: one `CharInclusion` state per character
class, plus extra literal include/exclude strings. There is no field for the
Whitespace class. -/
structure CharRecipe where
  Length : Int
  Uppers : CharInclusion
  Lowers : CharInclusion
  Digits : CharInclusion
  Symbols : CharInclusion
  Ambiguous : CharInclusion
  ExcludeExtra : List Char
  IncludeExtra : List Char

/-- The reflection loop of `buildCharacterList` pairs each field named in the
`fieldNamesAlphabets` map (`Uppers`, `Lowers`, `Digits`, `Symbols`,
`Ambiguous` — `WhiteSpace` has no entry and no field) with that map's alphabet
string. The Go map's iteration order is unspecified; declaration order is fixed
here, and the theorems below depend only on order-independent facts. -/
def fieldSettings (r : CharRecipe) : List (CharInclusion × List Char) :=
  [(r.Uppers, CTUpper), (r.Lowers, CTLower), (r.Digits, CTDigits),
   (r.Symbols, CTSymbols), (r.Ambiguous, CTAmbiguous)]

/-- One iteration of the `switch` in `buildCharacterList`: `CIRequire` falls
through to `CIAllow` (append the class to `ab`), `CIExclude` appends it to
`exclude`, `CIUnstated` and any unknown value do nothing. -/
def inclStep (acc : List Char × List Char) (p : CharInclusion × List Char) :
    List Char × List Char :=
  if p.1 = CIRequire then (acc.1 ++ p.2, acc.2)
  else if p.1 = CIAllow then (acc.1 ++ p.2, acc.2)
  else if p.1 = CIExclude then (acc.1, acc.2 ++ p.2)
  else acc

/-- `buildCharacterList` of `char_gen.go`: start `ab` with `IncludeExtra` and
`exclude` with `ExcludeExtra`, run the per-class loop, then
`subtractString ab exclude` split into single characters. -/
def buildCharacterList (r : CharRecipe) : List Char :=
  let acc := (fieldSettings r).foldl inclStep (r.IncludeExtra, r.ExcludeExtra)
  subtractString acc.1 acc.2

/-- `Entropy` of `char_gen.go`: `entropySimple(r.Length, len(buildCharacterList))`. -/
noncomputable def Entropy (r : CharRecipe) : ℝ :=
  entropySimple r.Length (buildCharacterList r).length

/-- `Generate` of `char_gen.go`. The call `Int31n(uint32(len(chars)))` draws
from the secure sampler, which is not under `src/`; it is modelled by an
abstract draw sequence `sample` (the spec's §4.4 contract — every draw lies in
`[0, bound)` — appears as a hypothesis of the theorems). An index not below
`len(chars)` makes `chars[…]` panic, which is the `panicOutOfRange` outcome;
the alphabet is never consulted before the length check. -/
noncomputable def Generate (r : CharRecipe) (sample : Nat → Nat) :
    Except GenError Password :=
  if r.Length < 1 then Except.error GenError.invalidLength
  else
    let chars := buildCharacterList r
    if (List.range r.Length.toNat).all (fun i => decide (sample i < chars.length)) then
      Except.ok (Password.mk
        ((List.range r.Length.toNat).map
          (fun i => Token.mk [chars.getD (sample i) ' '] TokenType.atom))
        (Entropy r))
    else Except.error GenError.panicOutOfRange

/-- `NewCharRecipe` of `char_gen.go`: Uppers, Lowers, Digits, Symbols allowed;
Ambiguous excluded. -/
def NewCharRecipe (length : Int) : CharRecipe :=
  { Length := length
    Uppers := CIAllow
    Lowers := CIAllow
    Digits := CIAllow
    Symbols := CIAllow
    Ambiguous := CIExclude
    ExcludeExtra := []
    IncludeExtra := [] }

theorem inclStep_incl (ab ex : List Char) (p : CharInclusion × List Char)
    (h : p.1 = CIRequire ∨ p.1 = CIAllow) :
    inclStep (ab, ex) p = (ab ++ p.2, ex) := by
  rcases h with h | h <;> simp [inclStep, h, CIRequire, CIAllow]

theorem inclStep_excl (ab ex : List Char) (p : CharInclusion × List Char)
    (h : p.1 = CIExclude) : inclStep (ab, ex) p = (ab, ex ++ p.2) := by
  simp [inclStep, h, CIRequire, CIAllow, CIExclude]

theorem inclStep_skip (ab ex : List Char) (p : CharInclusion × List Char)
    (h1 : ¬(p.1 = CIRequire ∨ p.1 = CIAllow)) (h3 : ¬p.1 = CIExclude) :
    inclStep (ab, ex) p = (ab, ex) := by
  push_neg at h1
  simp [inclStep, h1.1, h1.2, h3]

theorem foldl_inclStep_fst (c : Char) :
    ∀ (l : List (CharInclusion × List Char)) (ab ex : List Char),
      (c ∈ (l.foldl inclStep (ab, ex)).1 ↔
        c ∈ ab ∨ ∃ p ∈ l, (p.1 = CIRequire ∨ p.1 = CIAllow) ∧ c ∈ p.2) := by
  intro l
  induction l with
  | nil => intro ab ex; simp
  | cons p rest ih =>
    intro ab ex
    rw [List.foldl_cons]
    by_cases h12 : p.1 = CIRequire ∨ p.1 = CIAllow
    · rw [inclStep_incl ab ex p h12, ih]
      simp only [List.mem_append, List.mem_cons]
      constructor
      · rintro ((hab | hp) | ⟨q, hq, hcond, hcq⟩)
        · exact Or.inl hab
        · exact Or.inr ⟨p, Or.inl rfl, h12, hp⟩
        · exact Or.inr ⟨q, Or.inr hq, hcond, hcq⟩
      · rintro (hab | ⟨q, (rfl | hq), hcond, hcq⟩)
        · exact Or.inl (Or.inl hab)
        · exact Or.inl (Or.inr hcq)
        · exact Or.inr ⟨q, hq, hcond, hcq⟩
    · by_cases h3 : p.1 = CIExclude
      · rw [inclStep_excl ab ex p h3, ih]
        simp only [List.mem_cons]
        constructor
        · rintro (hab | ⟨q, hq, hcond, hcq⟩)
          · exact Or.inl hab
          · exact Or.inr ⟨q, Or.inr hq, hcond, hcq⟩
        · rintro (hab | ⟨q, (rfl | hq), hcond, hcq⟩)
          · exact Or.inl hab
          · exact absurd hcond h12
          · exact Or.inr ⟨q, hq, hcond, hcq⟩
      · rw [inclStep_skip ab ex p h12 h3, ih]
        simp only [List.mem_cons]
        constructor
        · rintro (hab | ⟨q, hq, hcond, hcq⟩)
          · exact Or.inl hab
          · exact Or.inr ⟨q, Or.inr hq, hcond, hcq⟩
        · rintro (hab | ⟨q, (rfl | hq), hcond, hcq⟩)
          · exact Or.inl hab
          · exact absurd hcond h12
          · exact Or.inr ⟨q, hq, hcond, hcq⟩

theorem foldl_inclStep_snd (c : Char) :
    ∀ (l : List (CharInclusion × List Char)) (ab ex : List Char),
      (c ∈ (l.foldl inclStep (ab, ex)).2 ↔
        c ∈ ex ∨ ∃ p ∈ l, p.1 = CIExclude ∧ c ∈ p.2) := by
  intro l
  induction l with
  | nil => intro ab ex; simp
  | cons p rest ih =>
    intro ab ex
    rw [List.foldl_cons]
    by_cases h12 : p.1 = CIRequire ∨ p.1 = CIAllow
    · rw [inclStep_incl ab ex p h12, ih]
      simp only [List.mem_cons]
      constructor
      · rintro (hex | ⟨q, hq, hcond, hcq⟩)
        · exact Or.inl hex
        · exact Or.inr ⟨q, Or.inr hq, hcond, hcq⟩
      · rintro (hex | ⟨q, (rfl | hq), hcond, hcq⟩)
        · exact Or.inl hex
        · exact absurd (hcond ▸ h12) (by decide)
        · exact Or.inr ⟨q, hq, hcond, hcq⟩
    · by_cases h3 : p.1 = CIExclude
      · rw [inclStep_excl ab ex p h3, ih]
        simp only [List.mem_append, List.mem_cons]
        constructor
        · rintro ((hex | hp) | ⟨q, hq, hcond, hcq⟩)
          · exact Or.inl hex
          · exact Or.inr ⟨p, Or.inl rfl, h3, hp⟩
          · exact Or.inr ⟨q, Or.inr hq, hcond, hcq⟩
        · rintro (hex | ⟨q, (rfl | hq), hcond, hcq⟩)
          · exact Or.inl (Or.inl hex)
          · exact Or.inl (Or.inr hcq)
          · exact Or.inr ⟨q, hq, hcond, hcq⟩
      · rw [inclStep_skip ab ex p h12 h3, ih]
        simp only [List.mem_cons]
        constructor
        · rintro (hex | ⟨q, hq, hcond, hcq⟩)
          · exact Or.inl hex
          · exact Or.inr ⟨q, Or.inr hq, hcond, hcq⟩
        · rintro (hex | ⟨q, (rfl | hq), hcond, hcq⟩)
          · exact Or.inl hex
          · exact absurd hcond h3
          · exact Or.inr ⟨q, hq, hcond, hcq⟩

/-- Membership in the resolved V1 alphabet, characterised class by class. -/
theorem mem_buildCharacterList_states (r : CharRecipe) (c : Char) :
    c ∈ buildCharacterList r ↔
      (c ∈ r.IncludeExtra ∨
        ((r.Uppers = CIRequire ∨ r.Uppers = CIAllow) ∧ c ∈ CTUpper) ∨
        ((r.Lowers = CIRequire ∨ r.Lowers = CIAllow) ∧ c ∈ CTLower) ∨
        ((r.Digits = CIRequire ∨ r.Digits = CIAllow) ∧ c ∈ CTDigits) ∨
        ((r.Symbols = CIRequire ∨ r.Symbols = CIAllow) ∧ c ∈ CTSymbols) ∨
        ((r.Ambiguous = CIRequire ∨ r.Ambiguous = CIAllow) ∧ c ∈ CTAmbiguous)) ∧
      ¬(c ∈ r.ExcludeExtra ∨
        (r.Uppers = CIExclude ∧ c ∈ CTUpper) ∨
        (r.Lowers = CIExclude ∧ c ∈ CTLower) ∨
        (r.Digits = CIExclude ∧ c ∈ CTDigits) ∨
        (r.Symbols = CIExclude ∧ c ∈ CTSymbols) ∨
        (r.Ambiguous = CIExclude ∧ c ∈ CTAmbiguous)) := by
  rw [buildCharacterList]
  rw [mem_subtractString, foldl_inclStep_fst, foldl_inclStep_snd]
  rw [fieldSettings]
  simp only [List.mem_cons, List.not_mem_nil, or_false, List.mem_singleton]
  constructor
  · rintro ⟨h1, h2⟩
    constructor
    · rcases h1 with h | ⟨q, hq, hcond, hcq⟩
      · exact Or.inl h
      · rcases hq with rfl | rfl | rfl | rfl | rfl
        · exact Or.inr (Or.inl ⟨hcond, hcq⟩)
        · exact Or.inr (Or.inr (Or.inl ⟨hcond, hcq⟩))
        · exact Or.inr (Or.inr (Or.inr (Or.inl ⟨hcond, hcq⟩)))
        · exact Or.inr (Or.inr (Or.inr (Or.inr (Or.inl ⟨hcond, hcq⟩))))
        · exact Or.inr (Or.inr (Or.inr (Or.inr (Or.inr ⟨hcond, hcq⟩))))
    · intro hcon
      apply h2
      rcases hcon with h | ⟨ha, hb⟩ | ⟨ha, hb⟩ | ⟨ha, hb⟩ | ⟨ha, hb⟩ | ⟨ha, hb⟩
      · exact Or.inl h
      · exact Or.inr ⟨(r.Uppers, CTUpper), Or.inl rfl, ha, hb⟩
      · exact Or.inr ⟨(r.Lowers, CTLower), Or.inr (Or.inl rfl), ha, hb⟩
      · exact Or.inr ⟨(r.Digits, CTDigits), Or.inr (Or.inr (Or.inl rfl)), ha, hb⟩
      · exact Or.inr ⟨(r.Symbols, CTSymbols),
          Or.inr (Or.inr (Or.inr (Or.inl rfl))), ha, hb⟩
      · exact Or.inr ⟨(r.Ambiguous, CTAmbiguous),
          Or.inr (Or.inr (Or.inr (Or.inr rfl))), ha, hb⟩
  · rintro ⟨h1, h2⟩
    constructor
    · rcases h1 with h | ⟨ha, hb⟩ | ⟨ha, hb⟩ | ⟨ha, hb⟩ | ⟨ha, hb⟩ | ⟨ha, hb⟩
      · exact Or.inl h
      · exact Or.inr ⟨(r.Uppers, CTUpper), Or.inl rfl, ha, hb⟩
      · exact Or.inr ⟨(r.Lowers, CTLower), Or.inr (Or.inl rfl), ha, hb⟩
      · exact Or.inr ⟨(r.Digits, CTDigits), Or.inr (Or.inr (Or.inl rfl)), ha, hb⟩
      · exact Or.inr ⟨(r.Symbols, CTSymbols),
          Or.inr (Or.inr (Or.inr (Or.inl rfl))), ha, hb⟩
      · exact Or.inr ⟨(r.Ambiguous, CTAmbiguous),
          Or.inr (Or.inr (Or.inr (Or.inr rfl))), ha, hb⟩
    · intro hcon
      apply h2
      rcases hcon with h | ⟨q, hq, hcond, hcq⟩
      · exact Or.inl h
      · rcases hq with rfl | rfl | rfl | rfl | rfl
        · exact Or.inr (Or.inl ⟨hcond, hcq⟩)
        · exact Or.inr (Or.inr (Or.inl ⟨hcond, hcq⟩))
        · exact Or.inr (Or.inr (Or.inr (Or.inl ⟨hcond, hcq⟩)))
        · exact Or.inr (Or.inr (Or.inr (Or.inr (Or.inl ⟨hcond, hcq⟩))))
        · exact Or.inr (Or.inr (Or.inr (Or.inr (Or.inr ⟨hcond, hcq⟩))))

end V1

namespace V2

/-- Go `type CTFlag uint32`, modelled as a natural number bit mask (all flag
values and their unions stay far below `2^32`, so the width never matters). -/
abbrev CTFlag := Nat

/-- Flag `Uppers = 1 << 0`. -/
def Uppers : CTFlag := 1

/-- Flag `Lowers = 1 << 1`. -/
def Lowers : CTFlag := 2

/-- Flag `Digits = 1 << 2`. -/
def Digits : CTFlag := 4

/-- Flag `Symbols = 1 << 3`. -/
def Symbols : CTFlag := 8

/-- Flag `Ambiguous = 1 << 4`. -/
def Ambiguous : CTFlag := 16

/-- Flag `WhiteSpace = 1 << 5`. -/
def WhiteSpace : CTFlag := 32

/-- `Letters = Uppers | Lowers`. -/
def Letters : CTFlag := Uppers ||| Lowers

/-- The `charTypeByFlag` map, as a list of flag/alphabet pairs. The Go map's
iteration order is unspecified; declaration order is fixed here, and the
theorems below depend only on order-independent facts. Unlike the `V1` field
map, this one has a `WhiteSpace` entry. -/
def charTypeByFlag : List (CTFlag × List Char) :=
  [(Uppers, CTUpper), (Lowers, CTLower), (Digits, CTDigits),
   (Symbols, CTSymbols), (Ambiguous, CTAmbiguous), (WhiteSpace, CTWhiteSpace)]

/-- `CharRecipe` of the flag variant: `Allow`/`Require`/`Exclude` bit masks
plus extra literal include/exclude strings. -/
structure CharRecipe where
  Length : Int
  Allow : CTFlag
  Require : CTFlag
  Exclude : CTFlag
  ExcludeExtra : List Char
  IncludeExtra : List Char

/-- One iteration of the flag loop in `buildCharacterList`: an `Allow` hit and
a `Require` hit each append the class to `ab` (`Require` is treated as `Allow`
for now, per the code comment), an `Exclude` hit appends it to `exclude`. -/
def flagStep (r : CharRecipe) (acc : List Char × List Char)
    (p : CTFlag × List Char) : List Char × List Char :=
  let ab1 := if r.Allow &&& p.1 = p.1 then acc.1 ++ p.2 else acc.1
  let ab2 := if r.Require &&& p.1 = p.1 then ab1 ++ p.2 else ab1
  let ex1 := if r.Exclude &&& p.1 = p.1 then acc.2 ++ p.2 else acc.2
  (ab2, ex1)

/-- `buildCharacterList` of the flag variant: start `ab` with `IncludeExtra`
and `exclude` with `ExcludeExtra`, run the flag loop, then
`subtractString ab exclude` split into single characters. -/
def buildCharacterList (r : CharRecipe) : List Char :=
  let acc := charTypeByFlag.foldl (flagStep r) (r.IncludeExtra, r.ExcludeExtra)
  subtractString acc.1 acc.2

/-- `Entropy` of the flag variant: `entropySimple(r.Length, len(buildCharacterList))`. -/
noncomputable def Entropy (r : CharRecipe) : ℝ :=
  entropySimple r.Length (buildCharacterList r).length

/-- `Generate` of the flag variant; identical to `V1.Generate` except for the
recipe type (see the comment there for the sampler model). -/
noncomputable def Generate (r : CharRecipe) (sample : Nat → Nat) :
    Except GenError Password :=
  if r.Length < 1 then Except.error GenError.invalidLength
  else
    let chars := buildCharacterList r
    if (List.range r.Length.toNat).all (fun i => decide (sample i < chars.length)) then
      Except.ok (Password.mk
        ((List.range r.Length.toNat).map
          (fun i => Token.mk [chars.getD (sample i) ' '] TokenType.atom))
        (Entropy r))
    else Except.error GenError.panicOutOfRange

/-- `NewCharRecipe` of the flag variant: `Allow = Letters | Digits | Symbols`,
`Exclude = Ambiguous`. -/
def NewCharRecipe (length : Int) : CharRecipe :=
  { Length := length
    Allow := Letters ||| Digits ||| Symbols
    Require := 0
    Exclude := Ambiguous
    ExcludeExtra := []
    IncludeExtra := [] }

theorem flagStep_fst (r : CharRecipe) (ab ex : List Char)
    (p : CTFlag × List Char) :
    (flagStep r (ab, ex) p).1 =
      (if r.Allow &&& p.1 = p.1 then ab ++ p.2 else ab) ++
        (if r.Require &&& p.1 = p.1 then p.2 else []) := by
  unfold flagStep
  split_ifs <;> simp

theorem flagStep_snd (r : CharRecipe) (ab ex : List Char)
    (p : CTFlag × List Char) :
    (flagStep r (ab, ex) p).2 =
      ex ++ (if r.Exclude &&& p.1 = p.1 then p.2 else []) := by
  unfold flagStep
  split_ifs <;> simp

theorem foldl_flagStep_fst (r : CharRecipe) (c : Char) :
    ∀ (l : List (CTFlag × List Char)) (ab ex : List Char),
      (c ∈ (l.foldl (flagStep r) (ab, ex)).1 ↔
        c ∈ ab ∨ ∃ p ∈ l,
          (r.Allow &&& p.1 = p.1 ∨ r.Require &&& p.1 = p.1) ∧ c ∈ p.2) := by
  intro l
  induction l with
  | nil => intro ab ex; simp
  | cons p rest ih =>
    intro ab ex
    rw [List.foldl_cons]
    have hsurj : ∃ ab2 ex2 : List Char, flagStep r (ab, ex) p = (ab2, ex2) :=
      ⟨_, _, rfl⟩
    obtain ⟨ab2, ex2, heq⟩ := hsurj
    rw [heq, ih]
    have hab2 : ab2 = (flagStep r (ab, ex) p).1 := by rw [heq]
    rw [flagStep_fst] at hab2
    subst hab2
    simp only [List.mem_append, List.mem_cons]
    constructor
    · rintro ((hab | hp) | ⟨q, hq, hcond, hcq⟩)
      · split_ifs at hab with ha
        · rcases List.mem_append.mp hab with h | h
          · exact Or.inl h
          · exact Or.inr ⟨p, Or.inl rfl, Or.inl ha, h⟩
        · exact Or.inl hab
      · split_ifs at hp with hr
        · exact Or.inr ⟨p, Or.inl rfl, Or.inr hr, hp⟩
        · cases hp
      · exact Or.inr ⟨q, Or.inr hq, hcond, hcq⟩
    · rintro (hab | ⟨q, (rfl | hq), hcond, hcq⟩)
      · refine Or.inl (Or.inl ?_)
        split_ifs with ha
        · exact List.mem_append.mpr (Or.inl hab)
        · exact hab
      · rcases hcond with ha | hr
        · refine Or.inl (Or.inl ?_)
          rw [if_pos ha]
          exact List.mem_append.mpr (Or.inr hcq)
        · refine Or.inl (Or.inr ?_)
          rw [if_pos hr]
          exact hcq
      · exact Or.inr ⟨q, hq, hcond, hcq⟩

theorem foldl_flagStep_snd (r : CharRecipe) (c : Char) :
    ∀ (l : List (CTFlag × List Char)) (ab ex : List Char),
      (c ∈ (l.foldl (flagStep r) (ab, ex)).2 ↔
        c ∈ ex ∨ ∃ p ∈ l, r.Exclude &&& p.1 = p.1 ∧ c ∈ p.2) := by
  intro l
  induction l with
  | nil => intro ab ex; simp
  | cons p rest ih =>
    intro ab ex
    rw [List.foldl_cons]
    have hsurj : ∃ ab2 ex2 : List Char, flagStep r (ab, ex) p = (ab2, ex2) :=
      ⟨_, _, rfl⟩
    obtain ⟨ab2, ex2, heq⟩ := hsurj
    rw [heq, ih]
    have hex2 : ex2 = (flagStep r (ab, ex) p).2 := by rw [heq]
    rw [flagStep_snd] at hex2
    subst hex2
    simp only [List.mem_append, List.mem_cons]
    constructor
    · rintro ((hex | hp) | ⟨q, hq, hcond, hcq⟩)
      · exact Or.inl hex
      · split_ifs at hp with he
        · exact Or.inr ⟨p, Or.inl rfl, he, hp⟩
        · cases hp
      · exact Or.inr ⟨q, Or.inr hq, hcond, hcq⟩
    · rintro (hex | ⟨q, (rfl | hq), hcond, hcq⟩)
      · exact Or.inl (Or.inl hex)
      · refine Or.inl (Or.inr ?_)
        rw [if_pos hcond]
        exact hcq
      · exact Or.inr ⟨q, hq, hcond, hcq⟩

/-- Membership in the resolved flag-variant alphabet, characterised flag by
flag. -/
theorem mem_buildCharacterList_flags (r : CharRecipe) (c : Char) :
    c ∈ buildCharacterList r ↔
      (c ∈ r.IncludeExtra ∨
        ((r.Allow &&& Uppers = Uppers ∨ r.Require &&& Uppers = Uppers) ∧ c ∈ CTUpper) ∨
        ((r.Allow &&& Lowers = Lowers ∨ r.Require &&& Lowers = Lowers) ∧ c ∈ CTLower) ∨
        ((r.Allow &&& Digits = Digits ∨ r.Require &&& Digits = Digits) ∧ c ∈ CTDigits) ∨
        ((r.Allow &&& Symbols = Symbols ∨ r.Require &&& Symbols = Symbols) ∧ c ∈ CTSymbols) ∨
        ((r.Allow &&& Ambiguous = Ambiguous ∨ r.Require &&& Ambiguous = Ambiguous) ∧ c ∈ CTAmbiguous) ∨
        ((r.Allow &&& WhiteSpace = WhiteSpace ∨ r.Require &&& WhiteSpace = WhiteSpace) ∧ c ∈ CTWhiteSpace)) ∧
      ¬(c ∈ r.ExcludeExtra ∨
        (r.Exclude &&& Uppers = Uppers ∧ c ∈ CTUpper) ∨
        (r.Exclude &&& Lowers = Lowers ∧ c ∈ CTLower) ∨
        (r.Exclude &&& Digits = Digits ∧ c ∈ CTDigits) ∨
        (r.Exclude &&& Symbols = Symbols ∧ c ∈ CTSymbols) ∨
        (r.Exclude &&& Ambiguous = Ambiguous ∧ c ∈ CTAmbiguous) ∨
        (r.Exclude &&& WhiteSpace = WhiteSpace ∧ c ∈ CTWhiteSpace)) := by
  rw [buildCharacterList]
  rw [mem_subtractString, foldl_flagStep_fst, foldl_flagStep_snd]
  rw [charTypeByFlag]
  simp only [List.mem_cons, List.not_mem_nil, or_false]
  constructor
  · rintro ⟨h1, h2⟩
    constructor
    · rcases h1 with h | ⟨q, hq, hcond, hcq⟩
      · exact Or.inl h
      · rcases hq with rfl | rfl | rfl | rfl | rfl | rfl
        · exact Or.inr (Or.inl ⟨hcond, hcq⟩)
        · exact Or.inr (Or.inr (Or.inl ⟨hcond, hcq⟩))
        · exact Or.inr (Or.inr (Or.inr (Or.inl ⟨hcond, hcq⟩)))
        · exact Or.inr (Or.inr (Or.inr (Or.inr (Or.inl ⟨hcond, hcq⟩))))
        · exact Or.inr (Or.inr (Or.inr (Or.inr (Or.inr (Or.inl ⟨hcond, hcq⟩)))))
        · exact Or.inr (Or.inr (Or.inr (Or.inr (Or.inr (Or.inr ⟨hcond, hcq⟩)))))
    · intro hcon
      apply h2
      rcases hcon with h | ⟨ha, hb⟩ | ⟨ha, hb⟩ | ⟨ha, hb⟩ | ⟨ha, hb⟩ | ⟨ha, hb⟩ | ⟨ha, hb⟩
      · exact Or.inl h
      · exact Or.inr ⟨(Uppers, CTUpper), Or.inl rfl, ha, hb⟩
      · exact Or.inr ⟨(Lowers, CTLower), Or.inr (Or.inl rfl), ha, hb⟩
      · exact Or.inr ⟨(Digits, CTDigits), Or.inr (Or.inr (Or.inl rfl)), ha, hb⟩
      · exact Or.inr ⟨(Symbols, CTSymbols),
          Or.inr (Or.inr (Or.inr (Or.inl rfl))), ha, hb⟩
      · exact Or.inr ⟨(Ambiguous, CTAmbiguous),
          Or.inr (Or.inr (Or.inr (Or.inr (Or.inl rfl)))), ha, hb⟩
      · exact Or.inr ⟨(WhiteSpace, CTWhiteSpace),
          Or.inr (Or.inr (Or.inr (Or.inr (Or.inr rfl)))), ha, hb⟩
  · rintro ⟨h1, h2⟩
    constructor
    · rcases h1 with h | ⟨ha, hb⟩ | ⟨ha, hb⟩ | ⟨ha, hb⟩ | ⟨ha, hb⟩ | ⟨ha, hb⟩ | ⟨ha, hb⟩
      · exact Or.inl h
      · exact Or.inr ⟨(Uppers, CTUpper), Or.inl rfl, ha, hb⟩
      · exact Or.inr ⟨(Lowers, CTLower), Or.inr (Or.inl rfl), ha, hb⟩
      · exact Or.inr ⟨(Digits, CTDigits), Or.inr (Or.inr (Or.inl rfl)), ha, hb⟩
      · exact Or.inr ⟨(Symbols, CTSymbols),
          Or.inr (Or.inr (Or.inr (Or.inl rfl))), ha, hb⟩
      · exact Or.inr ⟨(Ambiguous, CTAmbiguous),
          Or.inr (Or.inr (Or.inr (Or.inr (Or.inl rfl)))), ha, hb⟩
      · exact Or.inr ⟨(WhiteSpace, CTWhiteSpace),
          Or.inr (Or.inr (Or.inr (Or.inr (Or.inr rfl)))), ha, hb⟩
    · intro hcon
      apply h2
      rcases hcon with h | ⟨q, hq, hcond, hcq⟩
      · exact Or.inl h
      · rcases hq with rfl | rfl | rfl | rfl | rfl | rfl
        · exact Or.inr (Or.inl ⟨hcond, hcq⟩)
        · exact Or.inr (Or.inr (Or.inl ⟨hcond, hcq⟩))
        · exact Or.inr (Or.inr (Or.inr (Or.inl ⟨hcond, hcq⟩)))
        · exact Or.inr (Or.inr (Or.inr (Or.inr (Or.inl ⟨hcond, hcq⟩))))
        · exact Or.inr (Or.inr (Or.inr (Or.inr (Or.inr (Or.inl ⟨hcond, hcq⟩)))))
        · exact Or.inr (Or.inr (Or.inr (Or.inr (Or.inr (Or.inr ⟨hcond, hcq⟩)))))

end V2

/-! Helper lemmas and refinement infrastructure for the claims. -/

theorem V1.inclStep_allow_require (acc : List Char × List Char) (cs : List Char) :
    V1.inclStep acc (V1.CIAllow, cs) = V1.inclStep acc (V1.CIRequire, cs) := by
  simp [V1.inclStep, V1.CIAllow, V1.CIRequire, V1.CIExclude]

theorem mask5_and_1 (a b c d e : Prop) [Decidable a] [Decidable b] [Decidable c]
    [Decidable d] [Decidable e] :
    (((if a then 1 else 0) ||| (if b then 2 else 0) ||| (if c then 4 else 0) |||
      (if d then 8 else 0) ||| (if e then 16 else 0) : Nat) &&& 1 = 1) ↔ a := by
  by_cases ha : a <;> by_cases hb : b <;> by_cases hc : c <;>
    by_cases hd : d <;> by_cases he : e <;> simp [ha, hb, hc, hd, he] <;> decide

theorem mask5_and_2 (a b c d e : Prop) [Decidable a] [Decidable b] [Decidable c]
    [Decidable d] [Decidable e] :
    (((if a then 1 else 0) ||| (if b then 2 else 0) ||| (if c then 4 else 0) |||
      (if d then 8 else 0) ||| (if e then 16 else 0) : Nat) &&& 2 = 2) ↔ b := by
  by_cases ha : a <;> by_cases hb : b <;> by_cases hc : c <;>
    by_cases hd : d <;> by_cases he : e <;> simp [ha, hb, hc, hd, he] <;> decide

theorem mask5_and_4 (a b c d e : Prop) [Decidable a] [Decidable b] [Decidable c]
    [Decidable d] [Decidable e] :
    (((if a then 1 else 0) ||| (if b then 2 else 0) ||| (if c then 4 else 0) |||
      (if d then 8 else 0) ||| (if e then 16 else 0) : Nat) &&& 4 = 4) ↔ c := by
  by_cases ha : a <;> by_cases hb : b <;> by_cases hc : c <;>
    by_cases hd : d <;> by_cases he : e <;> simp [ha, hb, hc, hd, he] <;> decide

theorem mask5_and_8 (a b c d e : Prop) [Decidable a] [Decidable b] [Decidable c]
    [Decidable d] [Decidable e] :
    (((if a then 1 else 0) ||| (if b then 2 else 0) ||| (if c then 4 else 0) |||
      (if d then 8 else 0) ||| (if e then 16 else 0) : Nat) &&& 8 = 8) ↔ d := by
  by_cases ha : a <;> by_cases hb : b <;> by_cases hc : c <;>
    by_cases hd : d <;> by_cases he : e <;> simp [ha, hb, hc, hd, he] <;> decide

theorem mask5_and_16 (a b c d e : Prop) [Decidable a] [Decidable b] [Decidable c]
    [Decidable d] [Decidable e] :
    (((if a then 1 else 0) ||| (if b then 2 else 0) ||| (if c then 4 else 0) |||
      (if d then 8 else 0) ||| (if e then 16 else 0) : Nat) &&& 16 = 16) ↔ e := by
  by_cases ha : a <;> by_cases hb : b <;> by_cases hc : c <;>
    by_cases hd : d <;> by_cases he : e <;> simp [ha, hb, hc, hd, he] <;> decide

theorem mask5_and_32 (a b c d e : Prop) [Decidable a] [Decidable b] [Decidable c]
    [Decidable d] [Decidable e] :
    (((if a then 1 else 0) ||| (if b then 2 else 0) ||| (if c then 4 else 0) |||
      (if d then 8 else 0) ||| (if e then 16 else 0) : Nat) &&& 32 = 32) ↔ False := by
  by_cases ha : a <;> by_cases hb : b <;> by_cases hc : c <;>
    by_cases hd : d <;> by_cases he : e <;> simp [ha, hb, hc, hd, he] <;> decide

/-- Refinement map for the two recipe encodings (spec §9: the bitmask and
per-class-state models are two encodings of the same Recipe concept): the flag
mask collecting exactly the `V1` classes whose inclusion state equals `st`. -/
def maskFor (r : V1.CharRecipe) (st : V1.CharInclusion) : V2.CTFlag :=
  (if r.Uppers = st then V2.Uppers else 0) |||
  (if r.Lowers = st then V2.Lowers else 0) |||
  (if r.Digits = st then V2.Digits else 0) |||
  (if r.Symbols = st then V2.Symbols else 0) |||
  (if r.Ambiguous = st then V2.Ambiguous else 0)

/-- The flag-variant recipe corresponding to a per-class-state recipe: equal
`Length`, `IncludeExtra` and `ExcludeExtra`, and each class's flag placed in
the `Allow`/`Require`/`Exclude` mask matching its inclusion state (no
whitespace flag, since `V1.CharRecipe` has no Whitespace field). -/
def toFlagRecipe (r : V1.CharRecipe) : V2.CharRecipe :=
  { Length := r.Length
    Allow := maskFor r V1.CIAllow
    Require := maskFor r V1.CIRequire
    Exclude := maskFor r V1.CIExclude
    ExcludeExtra := r.ExcludeExtra
    IncludeExtra := r.IncludeExtra }

/-- Recipe with an empty resolved alphabet: digits are allowed but every digit
is excluded again through `ExcludeExtra`. -/
def emptyAlphabetRecipe : V1.CharRecipe :=
  { Length := 4
    Uppers := V1.CIUnstated
    Lowers := V1.CIUnstated
    Digits := V1.CIAllow
    Symbols := V1.CIUnstated
    Ambiguous := V1.CIUnstated
    ExcludeExtra := CTDigits
    IncludeExtra := [] }

/-- Flag-variant recipe requiring digits while allowing uppercase letters. -/
def requireDigitsRecipe : V2.CharRecipe :=
  { Length := 1
    Allow := V2.Uppers
    Require := V2.Digits
    Exclude := 0
    ExcludeExtra := []
    IncludeExtra := [] }

/-- Recipe of the spec's concrete scenario: length 4, all classes unstated,
`includeExtra` the single character `€`. -/
def euroRecipe : V1.CharRecipe :=
  { Length := 4
    Uppers := V1.CIUnstated
    Lowers := V1.CIUnstated
    Digits := V1.CIUnstated
    Symbols := V1.CIUnstated
    Ambiguous := V1.CIUnstated
    ExcludeExtra := []
    IncludeExtra := ['€'] }

/-! The claims. -/

/-- C1: the spec's contract says `generate` and `entropy` fail with the typed
error `EmptyAlphabet` when the resolved alphabet is empty; the code has no
such check and no such error value. On `emptyAlphabetRecipe` the alphabet
resolves to `[]` and `Generate` crashes with an index-out-of-range panic for
every draw sequence, returning neither a Password nor an `EmptyAlphabet`
failure; `Entropy` is total and returns `length × log2(0)` (`-Inf` in Go)
instead of failing. -/
theorem claim_C1_generate_empty_alphabet_panics :
    V1.buildCharacterList emptyAlphabetRecipe = [] ∧
    ∀ sample : Nat → Nat,
      V1.Generate emptyAlphabetRecipe sample =
        Except.error GenError.panicOutOfRange :=
  ⟨by decide, fun sample => rfl⟩

/-- C2: every character of the resolved alphabet comes from an
Allowed/Required class or from `IncludeExtra`, and none of them belongs to an
Excluded class or to `ExcludeExtra` — exclusion always wins. Stated for both
recipe variants. -/
theorem claim_C2_alphabet_members_allowed_not_excluded :
    (∀ (r : V1.CharRecipe) (c : Char), c ∈ V1.buildCharacterList r →
      (c ∈ r.IncludeExtra ∨
        ((r.Uppers = V1.CIRequire ∨ r.Uppers = V1.CIAllow) ∧ c ∈ CTUpper) ∨
        ((r.Lowers = V1.CIRequire ∨ r.Lowers = V1.CIAllow) ∧ c ∈ CTLower) ∨
        ((r.Digits = V1.CIRequire ∨ r.Digits = V1.CIAllow) ∧ c ∈ CTDigits) ∨
        ((r.Symbols = V1.CIRequire ∨ r.Symbols = V1.CIAllow) ∧ c ∈ CTSymbols) ∨
        ((r.Ambiguous = V1.CIRequire ∨ r.Ambiguous = V1.CIAllow) ∧ c ∈ CTAmbiguous)) ∧
      ¬(c ∈ r.ExcludeExtra ∨
        (r.Uppers = V1.CIExclude ∧ c ∈ CTUpper) ∨
        (r.Lowers = V1.CIExclude ∧ c ∈ CTLower) ∨
        (r.Digits = V1.CIExclude ∧ c ∈ CTDigits) ∨
        (r.Symbols = V1.CIExclude ∧ c ∈ CTSymbols) ∨
        (r.Ambiguous = V1.CIExclude ∧ c ∈ CTAmbiguous))) ∧
    (∀ (r : V2.CharRecipe) (c : Char), c ∈ V2.buildCharacterList r →
      (c ∈ r.IncludeExtra ∨
        ((r.Allow &&& V2.Uppers = V2.Uppers ∨ r.Require &&& V2.Uppers = V2.Uppers) ∧ c ∈ CTUpper) ∨
        ((r.Allow &&& V2.Lowers = V2.Lowers ∨ r.Require &&& V2.Lowers = V2.Lowers) ∧ c ∈ CTLower) ∨
        ((r.Allow &&& V2.Digits = V2.Digits ∨ r.Require &&& V2.Digits = V2.Digits) ∧ c ∈ CTDigits) ∨
        ((r.Allow &&& V2.Symbols = V2.Symbols ∨ r.Require &&& V2.Symbols = V2.Symbols) ∧ c ∈ CTSymbols) ∨
        ((r.Allow &&& V2.Ambiguous = V2.Ambiguous ∨ r.Require &&& V2.Ambiguous = V2.Ambiguous) ∧ c ∈ CTAmbiguous) ∨
        ((r.Allow &&& V2.WhiteSpace = V2.WhiteSpace ∨ r.Require &&& V2.WhiteSpace = V2.WhiteSpace) ∧ c ∈ CTWhiteSpace)) ∧
      ¬(c ∈ r.ExcludeExtra ∨
        (r.Exclude &&& V2.Uppers = V2.Uppers ∧ c ∈ CTUpper) ∨
        (r.Exclude &&& V2.Lowers = V2.Lowers ∧ c ∈ CTLower) ∨
        (r.Exclude &&& V2.Digits = V2.Digits ∧ c ∈ CTDigits) ∨
        (r.Exclude &&& V2.Symbols = V2.Symbols ∧ c ∈ CTSymbols) ∨
        (r.Exclude &&& V2.Ambiguous = V2.Ambiguous ∧ c ∈ CTAmbiguous) ∨
        (r.Exclude &&& V2.WhiteSpace = V2.WhiteSpace ∧ c ∈ CTWhiteSpace))) :=
  ⟨fun r c h => (V1.mem_buildCharacterList_states r c).mp h,
   fun r c h => (V2.mem_buildCharacterList_flags r c).mp h⟩

theorem claim_C2_alphabet_members_allowed_not_excluded_witness :
    ('A' ∈ V1.buildCharacterList (V1.NewCharRecipe 8)) ∧
    (('A' ∈ (V1.NewCharRecipe 8).IncludeExtra ∨
      (((V1.NewCharRecipe 8).Uppers = V1.CIRequire ∨
        (V1.NewCharRecipe 8).Uppers = V1.CIAllow) ∧ 'A' ∈ CTUpper) ∨
      (((V1.NewCharRecipe 8).Lowers = V1.CIRequire ∨
        (V1.NewCharRecipe 8).Lowers = V1.CIAllow) ∧ 'A' ∈ CTLower) ∨
      (((V1.NewCharRecipe 8).Digits = V1.CIRequire ∨
        (V1.NewCharRecipe 8).Digits = V1.CIAllow) ∧ 'A' ∈ CTDigits) ∨
      (((V1.NewCharRecipe 8).Symbols = V1.CIRequire ∨
        (V1.NewCharRecipe 8).Symbols = V1.CIAllow) ∧ 'A' ∈ CTSymbols) ∨
      (((V1.NewCharRecipe 8).Ambiguous = V1.CIRequire ∨
        (V1.NewCharRecipe 8).Ambiguous = V1.CIAllow) ∧ 'A' ∈ CTAmbiguous)) ∧
    ¬('A' ∈ (V1.NewCharRecipe 8).ExcludeExtra ∨
      ((V1.NewCharRecipe 8).Uppers = V1.CIExclude ∧ 'A' ∈ CTUpper) ∨
      ((V1.NewCharRecipe 8).Lowers = V1.CIExclude ∧ 'A' ∈ CTLower) ∨
      ((V1.NewCharRecipe 8).Digits = V1.CIExclude ∧ 'A' ∈ CTDigits) ∨
      ((V1.NewCharRecipe 8).Symbols = V1.CIExclude ∧ 'A' ∈ CTSymbols) ∨
      ((V1.NewCharRecipe 8).Ambiguous = V1.CIExclude ∧ 'A' ∈ CTAmbiguous))) :=
  ⟨by decide,
    claim_C2_alphabet_members_allowed_not_excluded.1 (V1.NewCharRecipe 8) 'A'
      (by decide)⟩

/-- C3: for a recipe whose resolved alphabet is non-empty (size `n`) and whose
length is at least 1, `Entropy` equals `Length × log2(n)` — the naive formula
ignoring Require constraints — and the value is non-negative. -/
theorem claim_C3_entropy_naive_formula_nonneg (r : V1.CharRecipe)
    (hL : 1 ≤ r.Length) (hn : 1 ≤ (V1.buildCharacterList r).length) :
    V1.Entropy r =
      (r.Length : ℝ) * Real.logb 2 ((V1.buildCharacterList r).length : ℝ) ∧
    0 ≤ V1.Entropy r := by
  constructor
  · rfl
  · apply mul_nonneg
    · exact_mod_cast le_trans (by norm_num : (0 : Int) ≤ 1) hL
    · exact Real.logb_nonneg (by norm_num) (by exact_mod_cast hn)

theorem claim_C3_entropy_naive_formula_nonneg_witness :
    V1.Entropy (V1.NewCharRecipe 8) =
      ((V1.NewCharRecipe 8).Length : ℝ) *
        Real.logb 2 ((V1.buildCharacterList (V1.NewCharRecipe 8)).length : ℝ) ∧
    0 ≤ V1.Entropy (V1.NewCharRecipe 8) :=
  claim_C3_entropy_naive_formula_nonneg (V1.NewCharRecipe 8) (by decide) (by decide)

/-- C4: the spec (and the code's own doc comment on `CIRequire`) promises that
a Required class always appears in the output, but the code treats `Require`
exactly like `Allow` ("Treat Require as Allow for now"): with digits Required
and uppercase Allowed there is a draw sequence whose password contains no
digit at all. -/
theorem claim_C4_require_class_not_guaranteed :
    ∃ p, V2.Generate requireDigitsRecipe (fun _ => 0) = Except.ok p ∧
      p.Tokens = [Token.mk ['A'] TokenType.atom] ∧
      ∀ t ∈ p.Tokens, ∀ ch ∈ t.value, ch ∉ CTDigits :=
  ⟨_, rfl, by decide, by decide⟩

/-- C5: the resolved alphabet never contains a character twice, in either
recipe variant, whatever the overlaps between classes and extra strings. -/
theorem claim_C5_alphabet_no_duplicates :
    (∀ r : V1.CharRecipe, (V1.buildCharacterList r).Nodup) ∧
    (∀ r : V2.CharRecipe, (V2.buildCharacterList r).Nodup) :=
  ⟨fun _ => nodup_subtractString _ _, fun _ => nodup_subtractString _ _⟩

/-- C6: switching any single class between `Allow` and `Require` leaves the
resolved alphabet unchanged (even as a list, hence also as a set): `Require`
and `Allow` are interchangeable for alphabet membership. -/
theorem claim_C6_require_equals_allow_for_alphabet (r : V1.CharRecipe) :
    (V1.buildCharacterList { r with Uppers := V1.CIAllow } =
      V1.buildCharacterList { r with Uppers := V1.CIRequire }) ∧
    (V1.buildCharacterList { r with Lowers := V1.CIAllow } =
      V1.buildCharacterList { r with Lowers := V1.CIRequire }) ∧
    (V1.buildCharacterList { r with Digits := V1.CIAllow } =
      V1.buildCharacterList { r with Digits := V1.CIRequire }) ∧
    (V1.buildCharacterList { r with Symbols := V1.CIAllow } =
      V1.buildCharacterList { r with Symbols := V1.CIRequire }) ∧
    (V1.buildCharacterList { r with Ambiguous := V1.CIAllow } =
      V1.buildCharacterList { r with Ambiguous := V1.CIRequire }) := by
  refine ⟨?_, ?_, ?_, ?_, ?_⟩ <;>
    (simp only [V1.buildCharacterList, V1.fieldSettings, List.foldl_cons,
      List.foldl_nil]
     rw [V1.inclStep_allow_require])

/-- C7: the per-class-state recipe and its corresponding bitmask recipe (equal
`Length`, `IncludeExtra`, `ExcludeExtra`, and each class flag placed in the
mask matching the class's state) resolve exactly the same set of characters. -/
theorem claim_C7_flag_and_state_recipes_equivalent (r : V1.CharRecipe)
    (c : Char) :
    c ∈ V1.buildCharacterList r ↔ c ∈ V2.buildCharacterList (toFlagRecipe r) := by
  rw [V1.mem_buildCharacterList_states, V2.mem_buildCharacterList_flags]
  simp only [toFlagRecipe, maskFor, V2.Uppers, V2.Lowers, V2.Digits, V2.Symbols,
    V2.Ambiguous, V2.WhiteSpace]
  simp only [mask5_and_1, mask5_and_2, mask5_and_4, mask5_and_8, mask5_and_16,
    mask5_and_32, false_or, or_false, false_and, and_false]
  itauto

/-- C8: with a valid length, a non-empty alphabet and in-range draws,
`Generate` succeeds with exactly `Length` atom tokens, the i-th being exactly
the character the i-th draw selects (draw order, no transformation), all from
the resolved alphabet, with the recipe's entropy attached; and on the spec's
concrete scenario (length 4, all classes unstated, includeExtra `€`) it always
returns `€€€€` with entropy 0, for every conforming draw sequence. -/
theorem claim_C8_generate_draw_order_tokens :
    (∀ (r : V1.CharRecipe) (sample : Nat → Nat), 1 ≤ r.Length →
      V1.buildCharacterList r ≠ [] →
      (∀ i, sample i < (V1.buildCharacterList r).length) →
      ∃ p, V1.Generate r sample = Except.ok p ∧
        p.Tokens.length = r.Length.toNat ∧
        (∀ i, ∀ hi : i < p.Tokens.length,
          p.Tokens.get ⟨i, hi⟩ =
            Token.mk [(V1.buildCharacterList r).getD (sample i) ' ']
              TokenType.atom) ∧
        (∀ t ∈ p.Tokens, t.ty = TokenType.atom ∧
          ∀ ch ∈ t.value, ch ∈ V1.buildCharacterList r) ∧
        p.Entropy = V1.Entropy r) ∧
    (∀ sample : Nat → Nat, (∀ i, sample i < 1) →
      V1.Generate euroRecipe sample =
        Except.ok (Password.mk
          (List.replicate 4 (Token.mk ['€'] TokenType.atom)) 0)) := by
  constructor
  · intro r sample hL hne hs
    have hnl : ¬ r.Length < 1 := by omega
    have hguard : ((List.range r.Length.toNat).all fun i =>
        decide (sample i < (V1.buildCharacterList r).length)) = true := by
      rw [List.all_eq_true]
      intro i _
      exact decide_eq_true (hs i)
    have hgen : V1.Generate r sample = Except.ok (Password.mk
        ((List.range r.Length.toNat).map
          (fun i => Token.mk [(V1.buildCharacterList r).getD (sample i) ' ']
            TokenType.atom))
        (V1.Entropy r)) := by
      simp only [V1.Generate, hnl, if_false, hguard, if_true]
    refine ⟨_, hgen, ?_, ?_, ?_, rfl⟩
    · simp
    · intro i hi
      simp only [List.length_map, List.length_range] at hi
      simp [List.getElem_map, List.getElem_range]
    · intro t ht
      simp only [List.mem_map, List.mem_range] at ht
      obtain ⟨i, hi, rfl⟩ := ht
      refine ⟨rfl, ?_⟩
      intro ch hch
      rcases List.mem_singleton.mp hch with rfl
      rw [List.getD_eq_getElem _ _ (hs i)]
      exact List.getElem_mem _
  · intro sample hs
    have h0 : ∀ i, sample i = 0 := fun i => Nat.lt_one_iff.mp (hs i)
    have hchars : V1.buildCharacterList euroRecipe = ['€'] := by decide
    have hent : V1.Entropy euroRecipe = 0 := by
      simp [V1.Entropy, entropySimple, hchars]
    simp only [V1.Generate, hchars, hent, h0]
    rw [if_neg (by decide)]
    norm_num [List.replicate]

theorem claim_C8_generate_draw_order_tokens_witness :
    (∃ p, V1.Generate (V1.NewCharRecipe 8) (fun _ => 0) = Except.ok p ∧
      p.Tokens.length = (V1.NewCharRecipe 8).Length.toNat ∧
      (∀ i, ∀ hi : i < p.Tokens.length,
        p.Tokens.get ⟨i, hi⟩ =
          Token.mk [(V1.buildCharacterList (V1.NewCharRecipe 8)).getD 0 ' ']
            TokenType.atom) ∧
      (∀ t ∈ p.Tokens, t.ty = TokenType.atom ∧
        ∀ ch ∈ t.value, ch ∈ V1.buildCharacterList (V1.NewCharRecipe 8)) ∧
      p.Entropy = V1.Entropy (V1.NewCharRecipe 8)) ∧
    V1.Generate euroRecipe (fun _ => 0) =
      Except.ok (Password.mk (List.replicate 4 (Token.mk ['€'] TokenType.atom)) 0) :=
  ⟨claim_C8_generate_draw_order_tokens.1 (V1.NewCharRecipe 8) (fun _ => 0)
      (by decide) (by decide)
      (fun _ => (by decide : 0 < (V1.buildCharacterList (V1.NewCharRecipe 8)).length)),
   claim_C8_generate_draw_order_tokens.2 (fun _ => 0) (fun i => Nat.one_pos)⟩

/-- C9: a recipe of length zero or negative makes `Generate` fail with the
invalid-length error (the `fmt.Errorf("don't ask for passwords of length %d")`
return), producing no password, in both recipe variants. -/
theorem claim_C9_generate_invalid_length :
    (∀ (r : V1.CharRecipe) (sample : Nat → Nat), r.Length < 1 →
      V1.Generate r sample = Except.error GenError.invalidLength) ∧
    (∀ (r : V2.CharRecipe) (sample : Nat → Nat), r.Length < 1 →
      V2.Generate r sample = Except.error GenError.invalidLength) := by
  constructor
  · intro r sample h
    simp [V1.Generate, h]
  · intro r sample h
    simp [V2.Generate, h]

theorem claim_C9_generate_invalid_length_witness :
    V1.Generate (V1.NewCharRecipe 0) (fun _ => 0) =
      Except.error GenError.invalidLength :=
  claim_C9_generate_invalid_length.1 (V1.NewCharRecipe 0) (fun _ => 0) (by decide)

/-- C10: `V1.CharRecipe` has no Whitespace field and the resolver iterates only
the five mapped classes, so the space and horizontal-tab characters are in the
resolved alphabet exactly when they occur in `IncludeExtra` and not in
`ExcludeExtra` — class policy can never add or remove them. -/
theorem claim_C10_whitespace_only_from_include_extra (r : V1.CharRecipe)
    (c : Char) (hc : c ∈ CTWhiteSpace) :
    c ∈ V1.buildCharacterList r ↔ c ∈ r.IncludeExtra ∧ c ∉ r.ExcludeExtra := by
  rw [show CTWhiteSpace = [' ', '\t'] from rfl] at hc
  have h5 : c ∉ CTUpper ∧ c ∉ CTLower ∧ c ∉ CTDigits ∧ c ∉ CTSymbols ∧
      c ∉ CTAmbiguous := by
    rcases List.mem_cons.mp hc with rfl | hc2
    · exact ⟨by decide, by decide, by decide, by decide, by decide⟩
    · rcases List.mem_singleton.mp hc2 with rfl
      exact ⟨by decide, by decide, by decide, by decide, by decide⟩
  rw [V1.mem_buildCharacterList_states]
  simp [h5.1, h5.2.1, h5.2.2.1, h5.2.2.2.1, h5.2.2.2.2]

theorem claim_C10_whitespace_only_from_include_extra_witness :
    (' ' ∈ CTWhiteSpace) ∧
    (' ' ∈ V1.buildCharacterList { V1.NewCharRecipe 8 with IncludeExtra := [' '] } ↔
      ' ' ∈ ({ V1.NewCharRecipe 8 with IncludeExtra := [' '] } : V1.CharRecipe).IncludeExtra ∧
      ' ' ∉ ({ V1.NewCharRecipe 8 with IncludeExtra := [' '] } : V1.CharRecipe).ExcludeExtra) :=
  ⟨by decide,
    claim_C10_whitespace_only_from_include_extra
      { V1.NewCharRecipe 8 with IncludeExtra := [' '] } ' ' (by decide)⟩

end Spg
